import Mathlib

/-!
Verification of the OutHere route-drawing engine (trail snapping, trail
segment extraction, fragment merging, corridor connection and route
assembly), shallowly embedded from the JavaScript drawing-tools source.

Modelling conventions:
* Geographic and pixel coordinates are pairs of rationals (`Coord`); the
  JS numbers are IEEE doubles, modelled as exact rationals.
* External collaborators (`map.project`, `turf.distance`,
  `turf.nearestPointOnLine`, `turf.lineSlice`, `turf.length`) are
  parameters, collected in a `GeoEnv`; the result of
  `map.queryRenderedFeatures` is passed in as an explicit list.
* Pixel distances: the source computes `Math.sqrt(dx*dx+dy*dy)` and
  compares it with a radius; we keep the squared distance and compare
  with the squared radius, which is equivalent since `sqrt` is monotone
  on nonnegative reals.
* JS array reads out of range produce `undefined`; they are modelled by
  `List.getD` with the junk coordinate `d0`.
* The one throwing turf constructor reached by this code
  (`turf.lineString` on fewer than two positions) is modelled with
  `Except`; the call sites catch it exactly where the source has
  `try`/`catch`.
-/

namespace OutHere

/-- A coordinate pair `[lng, lat]` (or `x, y` in pixel space). -/
abbrev Coord := ℚ × ℚ

/-- Junk value standing for JS `undefined` from out-of-range array reads. -/
def d0 : Coord := (0, 0)

/-- `const SNAP_PIXEL_RADIUS = 30` — pixel radius for trail query and snap
threshold. -/
def SNAP_PIXEL_RADIUS : ℚ := 30

/-- `const MERGE_GAP_TOLERANCE_METERS = 20` — max gap between trail fragment
endpoints for a merge. -/
def MERGE_GAP_TOLERANCE_METERS : ℚ := 20

/-- The dedup epsilon `1e-10` used by `buildMainRouteDisplayCoords`. -/
def DEDUP_EPS : ℚ := 1 / 10000000000

/-- Squared pixel distance (the source compares `sqrt(dx²+dy²)` with a
radius; we compare the square with the squared radius). -/
def pixelDistSq (p q : Coord) : ℚ :=
  (p.1 - q.1) * (p.1 - q.1) + (p.2 - q.2) * (p.2 - q.2)

/-- A stored trail reference, as pushed on `routeTrailRefs`:
`{ trailCoords, trailId, trailName, indexOnLine }`. -/
structure TrailRef where
  trailCoords : List Coord
  trailId : Option String
  trailName : Option String
  indexOnLine : ℕ
deriving DecidableEq, Repr

/-- A feature returned by `map.queryRenderedFeatures`: geometry type,
coordinate sequence, optional `id`/`name`. -/
structure TrailFeat where
  isLineString : Bool
  coords : List Coord
  id : Option String
  name : Option String
deriving DecidableEq, Repr

/-- External collaborators used by the engine (spec §6). -/
structure GeoEnv where
  /-- `map.project`: geographic → pixel. -/
  project : Coord → Coord
  /-- `turf.distance(a, b, {units:"meters"})`. -/
  dist : Coord → Coord → ℚ
  /-- `turf.nearestPointOnLine(line, pt)`: nearest point and its segment
  index (`properties.index`). -/
  nearest : List Coord → Coord → Coord × ℕ
  /-- `turf.lineSlice(startPt, stopPt, line)`, returning the sliced
  coordinate sequence. -/
  lineSlice : Coord → Coord → List Coord → List Coord
  /-- `turf.length(line, {units:"miles"})`. -/
  lineLength : List Coord → ℚ

/-- JS truthiness of the optional `trailId`/`trailName` strings:
`null`/`undefined` and the empty string are falsy. -/
def truthyStr : Option String → Bool
  | none => false
  | some s => decide (s ≠ "")

/-- Result of `trailsMatch`: the source returns `"same"`, `"related"`
or `false`. -/
inductive TrailMatch where
  | same
  | related
  | nomatch
deriving DecidableEq, Repr

/-- The "same" condition of `trailsMatch`:
`lengthMatch && firstMatch && lastMatch` (length equality plus exact
first/last coordinate equality). -/
def sameCond (refA refB : TrailRef) : Prop :=
  refA.trailCoords.length = refB.trailCoords.length ∧
  (0 < refA.trailCoords.length ∧ 0 < refB.trailCoords.length ∧
    refA.trailCoords.headD d0 = refB.trailCoords.headD d0) ∧
  (0 < refA.trailCoords.length ∧ 0 < refB.trailCoords.length ∧
    refA.trailCoords.getLastD d0 = refB.trailCoords.getLastD d0)

instance (refA refB : TrailRef) : Decidable (sameCond refA refB) := by
  unfold sameCond; infer_instance

/-- The "related by id" condition:
`refA.trailId && refB.trailId && refA.trailId === refB.trailId`. -/
def relIdCond (refA refB : TrailRef) : Prop :=
  truthyStr refA.trailId = true ∧ truthyStr refB.trailId = true ∧
    refA.trailId = refB.trailId

instance (refA refB : TrailRef) : Decidable (relIdCond refA refB) := by
  unfold relIdCond; infer_instance

/-- The "related by name" condition:
`refA.trailName && refB.trailName && refA.trailName === refB.trailName`. -/
def relNameCond (refA refB : TrailRef) : Prop :=
  truthyStr refA.trailName = true ∧ truthyStr refB.trailName = true ∧
    refA.trailName = refB.trailName

instance (refA refB : TrailRef) : Decidable (relNameCond refA refB) := by
  unfold relNameCond; infer_instance

/-- `trailsMatch(refA, refB)`: `"same"` on identical geometry (fast check:
equal length, equal first coordinate, equal last coordinate), `"related"`
on shared truthy id or name, else `false`. The two-argument (non-null)
core; the null-ref guard lives at the call site in
`getTrailSegmentBetween`. -/
def trailsMatch (refA refB : TrailRef) : TrailMatch :=
  if sameCond refA refB then .same
  else if relIdCond refA refB then .related
  else if relNameCond refA refB then .related
  else .nomatch

/-- `extractTrailSlice(trailCoords, startCoord, startIdx, endCoord, endIdx)`:
the provided start coordinate, then the trail vertices strictly between the
two segment indices (forward `startIdx+1 .. endIdx` when
`startIdx ≤ endIdx`, else backward `startIdx .. endIdx+1`), then the
provided end coordinate. -/
def extractTrailSlice (trailCoords : List Coord) (startCoord : Coord)
    (startIdx : ℕ) (endCoord : Coord) (endIdx : ℕ) : List Coord :=
  if startIdx ≤ endIdx then
    startCoord ::
      ((List.range' (startIdx + 1) (endIdx - startIdx)).map
        (fun i => trailCoords.getD i d0) ++ [endCoord])
  else
    startCoord ::
      (((List.range' (endIdx + 1) (startIdx - endIdx)).reverse).map
        (fun i => trailCoords.getD i d0) ++ [endCoord])

/-- A per-edge segment record `{ coords, isTrailSnapped }`. -/
structure SegResult where
  coords : List Coord
  isTrailSnapped : Bool
deriving DecidableEq, Repr

/-- Result of `snapToTrail`:
`{ coordinates, snapped, trailFeature, indexOnLine }`. -/
structure SnapRes where
  coordinates : Coord
  snapped : Bool
  trailFeature : Option TrailFeat
  indexOnLine : Option ℕ
deriving DecidableEq, Repr

/-- A candidate passes the loop filter in `snapToTrail` when its geometry
type is `LineString` and it has at least 2 coordinates. -/
def validTrail (t : TrailFeat) : Prop := t.isLineString = true ∧ 2 ≤ t.coords.length

instance (t : TrailFeat) : Decidable (validTrail t) := by
  unfold validTrail; infer_instance

/-- Squared pixel distance from the query pixel to the nearest point of a
candidate trail (the quantity the `snapToTrail` loop minimizes). -/
def candDistSq (project : Coord → Coord) (nearest : List Coord → Coord → Coord × ℕ)
    (coord pixel : Coord) (t : TrailFeat) : ℚ :=
  pixelDistSq (project (nearest t.coords coord).1) pixel

/-- One iteration of the best-candidate loop in `snapToTrail`: skip
non-`LineString` or degenerate candidates, otherwise keep the candidate
when its pixel distance is strictly below the best so far
(`pixelDist < bestPixelDist`, with the initial best `Infinity` modelled
by `none`). The accumulator holds
`(bestPoint, bestIndex, bestTrail, bestPixelDistSq)`. -/
def snapStep (project : Coord → Coord) (nearest : List Coord → Coord → Coord × ℕ)
    (coord pixel : Coord) (acc : Option (Coord × ℕ × TrailFeat × ℚ))
    (trail : TrailFeat) : Option (Coord × ℕ × TrailFeat × ℚ) :=
  if ¬ validTrail trail then acc
  else
    let n := nearest trail.coords coord
    let dSq := pixelDistSq (project n.1) pixel
    match acc with
    | none => some (n.1, n.2, trail, dSq)
    | some best => if dSq < best.2.2.2 then some (n.1, n.2, trail, dSq) else acc

/-- `snapToTrail(coord)` over an explicit candidate list (the result of the
`queryRenderedFeatures` bbox query): find the candidate with minimum pixel
distance and accept only when that minimum is within `SNAP_PIXEL_RADIUS`. -/
def snapToTrail (project : Coord → Coord) (nearest : List Coord → Coord → Coord × ℕ)
    (trails : List TrailFeat) (coord : Coord) : SnapRes :=
  if trails.length = 0 then ⟨coord, false, none, none⟩
  else
    let pixel := project coord
    match trails.foldl (snapStep project nearest coord pixel) none with
    | some (bpt, bidx, btrail, bdSq) =>
        if bdSq ≤ SNAP_PIXEL_RADIUS * SNAP_PIXEL_RADIUS then ⟨bpt, true, some btrail, some bidx⟩
        else ⟨coord, false, none, none⟩
    | none => ⟨coord, false, none, none⟩

/-- `turf.lineString(coords)`: throws on fewer than two positions. -/
def lineString (cs : List Coord) : Except String (List Coord) :=
  if cs.length < 2 then .error "coordinates must be an array of two or more positions"
  else .ok cs

/-- `mergeTrailFragments(featA, featB)`: try the four joins
(A-end→B-start), (A-end→B-end reversing B), (B-end→A-start),
(B-start→A-start reversing B), each against
`MERGE_GAP_TOLERANCE_METERS`; the first within tolerance wins. `.ok none`
is the source's `null`; `.error` is a thrown `turf.lineString` exception
(caught by the caller's `try`). -/
def mergeTrailFragments (dist : Coord → Coord → ℚ) (coordsA coordsB : List Coord) :
    Except String (Option (List Coord)) :=
  if coordsA.length = 0 ∨ coordsB.length = 0 then .ok none
  else
    let aEnd := coordsA.getLastD d0
    let bStart := coordsB.headD d0
    let bEnd := coordsB.getLastD d0
    let aStart := coordsA.headD d0
    if dist aEnd bStart ≤ MERGE_GAP_TOLERANCE_METERS then
      (lineString (coordsA ++ coordsB.drop 1)).map some
    else if dist aEnd bEnd ≤ MERGE_GAP_TOLERANCE_METERS then
      (lineString (coordsA ++ coordsB.reverse.drop 1)).map some
    else if dist bEnd aStart ≤ MERGE_GAP_TOLERANCE_METERS then
      (lineString (coordsB ++ coordsA.drop 1)).map some
    else if dist bStart aStart ≤ MERGE_GAP_TOLERANCE_METERS then
      (lineString (coordsB.reverse ++ coordsA.drop 1)).map some
    else .ok none

/-- The bounding-box prefilter of the single-trail pass in
`tryConnectTrails`: both endpoints must lie inside the trail's extent
padded by 0.005 degrees. For empty trails the JS min/max stay at
`±Infinity` and the check fails; the call site guarantees ≥2 coords. -/
def corridorPrefilter (prevCoord currCoord : Coord) : List Coord → Bool
  | [] => false
  | c :: rest =>
    let bounds := rest.foldl
      (fun (b : ℚ × ℚ × ℚ × ℚ) p =>
        (min b.1 p.1, max b.2.1 p.1, min b.2.2.1 p.2, max b.2.2.2 p.2))
      (c.1, c.1, c.2, c.2)
    let pad : ℚ := 5 / 1000
    decide (bounds.1 - pad ≤ prevCoord.1 ∧ prevCoord.1 ≤ bounds.2.1 + pad ∧
      bounds.2.2.1 - pad ≤ prevCoord.2 ∧ prevCoord.2 ≤ bounds.2.2.2 + pad ∧
      bounds.1 - pad ≤ currCoord.1 ∧ currCoord.1 ≤ bounds.2.1 + pad ∧
      bounds.2.2.1 - pad ≤ currCoord.2 ∧ currCoord.2 ≤ bounds.2.2.2 + pad)

/-- The single-trail pass body of `tryConnectTrails`: skip
non-`LineString`/degenerate trails and trails failing the bounding-box
prefilter; otherwise project both endpoints onto the trail, and when both
projections are within `2 * SNAP_PIXEL_RADIUS` pixels, extract the
index-based slice with the canonical vertex coordinates as endpoints. -/
def singleTrailCandidate (env : GeoEnv) (prevCoord currCoord : Coord)
    (t : TrailFeat) : Option (List Coord) :=
  if ¬ validTrail t then none
  else if ¬ corridorPrefilter prevCoord currCoord t.coords then none
  else
    let nPrev := env.nearest t.coords prevCoord
    let nCurr := env.nearest t.coords currCoord
    let dPrevSq := pixelDistSq (env.project nPrev.1) (env.project prevCoord)
    let dCurrSq := pixelDistSq (env.project nCurr.1) (env.project currCoord)
    if dPrevSq ≤ (2 * SNAP_PIXEL_RADIUS) * (2 * SNAP_PIXEL_RADIUS) ∧ dCurrSq ≤ (2 * SNAP_PIXEL_RADIUS) * (2 * SNAP_PIXEL_RADIUS) then
      let slicedCoords := extractTrailSlice t.coords prevCoord nPrev.2 currCoord nCurr.2
      if 2 ≤ slicedCoords.length then some slicedCoords else none
    else none

/-- The candidate collection of the two-hop pass: every corridor trail
(with position, for the later object-identity check) whose nearest
projection of the given endpoint is within `2 * SNAP_PIXEL_RADIUS`
pixels, with its nearest point. -/
def endpointCandidates (env : GeoEnv) (corridorTrails : List TrailFeat)
    (endpoint : Coord) : List (ℕ × TrailFeat × (Coord × ℕ)) :=
  corridorTrails.enum.filterMap (fun it =>
    if ¬ validTrail it.2 then none
    else
      let n := env.nearest it.2.coords endpoint
      if pixelDistSq (env.project n.1) (env.project endpoint) ≤
          (2 * SNAP_PIXEL_RADIUS) * (2 * SNAP_PIXEL_RADIUS) then
        some (it.1, it.2, n)
      else none)

/-- The junction search of the two-hop pass for one candidate pair: skip
the pair when both sides are the same query feature (`pc.trail ===
cc.trail`, object identity, modelled by the position in the query result);
otherwise scan all coordinate pairs for a gap within
`MERGE_GAP_TOLERANCE_METERS` and stitch `prevCoord→junction` on trail A
with `junction→currCoord` on trail B, deduplicating the junction. -/
def junctionStitch (env : GeoEnv) (prevCoord currCoord : Coord)
    (pc cc : ℕ × TrailFeat × (Coord × ℕ)) : Option (List Coord) :=
  if pc.1 = cc.1 then none
  else
    let coordsA := pc.2.1.coords
    let coordsB := cc.2.1.coords
    (List.range coordsA.length).findSome? (fun ai =>
      (List.range coordsB.length).findSome? (fun bi =>
        if env.dist (coordsA.getD ai d0) (coordsB.getD bi d0) ≤
            MERGE_GAP_TOLERANCE_METERS then
          let junctionCoord := coordsA.getD ai d0
          let legA := extractTrailSlice coordsA prevCoord pc.2.2.2 junctionCoord ai
          let legB := extractTrailSlice coordsB junctionCoord bi currCoord cc.2.2.2
          if 2 ≤ legA.length ∧ 2 ≤ legB.length then some (legA ++ legB.drop 1)
          else none
        else none))

/-- `tryConnectTrails(prevRef, currRef, prevCoord, currCoord)` over the
explicit corridor query result. First pass: a single trail whose nearest
projections of both endpoints lie within `2 * SNAP_PIXEL_RADIUS` pixels →
index-based slice with the canonical vertex coordinates as endpoints.
Second pass: two-hop junction search over all (start-side, end-side)
candidate pairs. Returns `none` ("null") when no connection is found;
stitching never throws, so nothing escapes. -/
def tryConnectTrails (env : GeoEnv) (corridorTrails : List TrailFeat)
    (prevCoord currCoord : Coord) : Option (List Coord) :=
  match corridorTrails.findSome? (singleTrailCandidate env prevCoord currCoord) with
  | some cs => some cs
  | none =>
    (endpointCandidates env corridorTrails prevCoord).findSome? (fun pc =>
      (endpointCandidates env corridorTrails currCoord).findSome? (fun cc =>
        junctionStitch env prevCoord currCoord pc cc))

/-- The `match === "related"` branch of `getTrailSegmentBetween`: merge the
two fragments, slice the merged line geographically (`turf.lineSlice`) and
overwrite the slice's first/last coordinates with the canonical vertex
coordinates. `none` covers both a failed merge and a caught exception. -/
def relatedMergeResult (env : GeoEnv) (prevRef currRef : TrailRef)
    (prevCoord currCoord : Coord) : Option SegResult :=
  match mergeTrailFragments env.dist prevRef.trailCoords currRef.trailCoords with
  | .error _ => none
  | .ok none => none
  | .ok (some merged) =>
    let sc := env.lineSlice prevCoord currCoord merged
    if 2 ≤ sc.length then
      some ⟨(sc.set 0 prevCoord).set (sc.length - 1) currCoord, true⟩
    else none

/-- `getTrailSegmentBetween(prevRef, currRef, prevCoord, currCoord)`:
straight line on an unsnapped endpoint; index-based slice on the same
trail; merge-then-slice on related fragments; corridor connection
otherwise; straight-line fallback when everything fails. -/
def getTrailSegmentBetween (env : GeoEnv) (corridorTrails : List TrailFeat)
    (prevRef currRef : Option TrailRef) (prevCoord currCoord : Coord) : SegResult :=
  match prevRef, currRef with
  | some pa, some pb =>
    match trailsMatch pa pb with
    | .same =>
      let slicedCoords :=
        extractTrailSlice pa.trailCoords prevCoord pa.indexOnLine currCoord pb.indexOnLine
      if 2 ≤ slicedCoords.length then ⟨slicedCoords, true⟩
      else ⟨[prevCoord, currCoord], false⟩
    | .related =>
      match relatedMergeResult env pa pb prevCoord currCoord with
      | some r => r
      | none =>
        match tryConnectTrails env corridorTrails prevCoord currCoord with
        | some cs => ⟨cs, true⟩
        | none => ⟨[prevCoord, currCoord], false⟩
    | .nomatch =>
      match tryConnectTrails env corridorTrails prevCoord currCoord with
      | some cs => ⟨cs, true⟩
      | none => ⟨[prevCoord, currCoord], false⟩
  | _, _ => ⟨[prevCoord, currCoord], false⟩

/-- `findLastMainRouteVertexIndex(upToIndex)`: the index of the last
non-`"dayhike"` vertex at or before `upToIndex`, scanning downward;
falls back to `0` when the scan exhausts. An out-of-range read gives JS
`undefined` (here `getD _ ""`), which is `≠ "dayhike"`. -/
def findLastMainRouteVertexIndex (routeVertexTypes : List String) : ℕ → ℕ
  | 0 => 0
  | i + 1 =>
    if routeVertexTypes.getD (i + 1) "" ≠ "dayhike" then i + 1
    else findLastMainRouteVertexIndex routeVertexTypes i

/-- One append step of `buildMainRouteDisplayCoords`: `startJ` begins at 1
and is reset to 0 unless the segment's first coordinate is within the
dedup epsilon (per axis) of the accumulated last coordinate; then
`segCoords[startJ..]` is appended. -/
def appendSegmentCoords (coords : List Coord) (seg : SegResult) : List Coord :=
  let segCoords := seg.coords
  let startJ : ℕ :=
    if 0 < segCoords.length ∧ 0 < coords.length then
      let last := coords.getLastD d0
      let first := segCoords.headD d0
      let dLng := |last.1 - first.1|
      let dLat := |last.2 - first.2|
      if DEDUP_EPS < dLng ∨ DEDUP_EPS < dLat then 0 else 1
    else 1
  coords ++ segCoords.drop startJ

/-- `buildMainRouteDisplayCoords()`: concatenate the segment coordinate
lists, dropping an appended segment's first coordinate when it duplicates
the previous last coordinate within the dedup epsilon. With no segments,
the display line is the first main-route vertex alone (or empty). -/
def buildMainRouteDisplayCoords (routeSegments : List SegResult)
    (routeCoords : List Coord) (routeVertexTypes : List String) : List Coord :=
  match routeSegments with
  | [] =>
    let mainVertices :=
      (routeCoords.enum.filter
        (fun ic => routeVertexTypes.getD ic.1 "" ≠ "dayhike")).map (·.2)
    if 0 < mainVertices.length then [mainVertices.headD d0] else []
  | s0 :: rest => rest.foldl appendSegmentCoords s0.coords

/-- A dayhike spur record `{ fromVertexIndex, coords, distance }`. -/
structure SpurRec where
  fromVertexIndex : ℕ
  coords : List Coord
  distance : ℚ
deriving DecidableEq, Repr

/-- The drawing-session state: the parallel arrays of the source plus the
segment and spur lists. -/
structure RouteState where
  routeCoords : List Coord
  routeSnapped : List Bool
  routeVertexTypes : List String
  routeTrailRefs : List (Option TrailRef)
  routeSegments : List SegResult
  routeDayhikeSegments : List SpurRec
deriving DecidableEq, Repr

/-- The empty session created by `startRouteDrawing` / `resetRouteDrawing`. -/
def initialRouteState : RouteState := ⟨[], [], [], [], [], []⟩

/-- One user click, as seen by `handleMapClickForRoute` after the snap:
the (possibly snapped) coordinate, the snap flag and trail ref, the active
point type, and the corridor query result the click's connection logic
would see. -/
structure ClickInput where
  coord : Coord
  snapped : Bool
  ref : Option TrailRef
  ptype : String
  corridor : List TrailFeat

/-- The state mutation of `handleMapClickForRoute`: push the vertex onto
the parallel arrays, then — with at least two vertices — either record a
dayhike spur branching from the last main-route vertex, or append a main
segment from the last main-route vertex (skipping a dayhike predecessor). -/
def handleMapClickForRoute (env : GeoEnv) (st : RouteState) (c : ClickInput) :
    RouteState :=
  let routeCoords := st.routeCoords ++ [c.coord]
  let routeSnapped := st.routeSnapped ++ [c.snapped]
  let routeVertexTypes := st.routeVertexTypes ++ [c.ptype]
  let routeTrailRefs := st.routeTrailRefs ++ [if c.snapped then c.ref else none]
  if 2 ≤ routeCoords.length then
    let currIdx := routeCoords.length - 1
    let prevIdx := currIdx - 1
    if c.ptype = "dayhike" then
      let lastMainIdx := findLastMainRouteVertexIndex routeVertexTypes prevIdx
      let segment := getTrailSegmentBetween env c.corridor
        (routeTrailRefs.getD lastMainIdx none) (routeTrailRefs.getD currIdx none)
        (routeCoords.getD lastMainIdx d0) (routeCoords.getD currIdx d0)
      let dist := if 2 ≤ segment.coords.length then env.lineLength segment.coords else 0
      ⟨routeCoords, routeSnapped, routeVertexTypes, routeTrailRefs,
        st.routeSegments,
        st.routeDayhikeSegments ++ [⟨lastMainIdx, segment.coords, dist⟩]⟩
    else
      let lastMainIdx := findLastMainRouteVertexIndex routeVertexTypes prevIdx
      let fromIdx :=
        if routeVertexTypes.getD prevIdx "" = "dayhike" then lastMainIdx else prevIdx
      let segment := getTrailSegmentBetween env c.corridor
        (routeTrailRefs.getD fromIdx none) (routeTrailRefs.getD currIdx none)
        (routeCoords.getD fromIdx d0) (routeCoords.getD currIdx d0)
      ⟨routeCoords, routeSnapped, routeVertexTypes, routeTrailRefs,
        st.routeSegments ++ [segment], st.routeDayhikeSegments⟩
  else
    ⟨routeCoords, routeSnapped, routeVertexTypes, routeTrailRefs,
      st.routeSegments, st.routeDayhikeSegments⟩

/-- A whole drawing session: fold the clicks over the empty state. -/
def runClicks (env : GeoEnv) (clicks : List ClickInput) : RouteState :=
  clicks.foldl (handleMapClickForRoute env) initialRouteState

/-- A concrete environment for witnesses and counterexamples: identity
projection, zero geodesic distance, trivial nearest point and slices. -/
def trivEnv : GeoEnv where
  project := id
  dist := fun _ _ => 0
  nearest := fun _ _ => (d0, 0)
  lineSlice := fun _ _ l => l
  lineLength := fun _ => 0

/-! ## Helper lemmas about `extractTrailSlice` -/

theorem extractTrailSlice_head? (tc : List Coord) (s : Coord) (i : ℕ) (e : Coord) (j : ℕ) :
    (extractTrailSlice tc s i e j).head? = some s := by
  unfold extractTrailSlice; split <;> rfl

theorem extractTrailSlice_getLast? (tc : List Coord) (s : Coord) (i : ℕ) (e : Coord) (j : ℕ) :
    (extractTrailSlice tc s i e j).getLast? = some e := by
  unfold extractTrailSlice
  split <;> rw [← List.cons_append, List.getLast?_concat]

theorem extractTrailSlice_drop_one (tc : List Coord) (s : Coord) (i : ℕ) (e : Coord) (j : ℕ) :
    ∃ m, (extractTrailSlice tc s i e j).drop 1 = m ++ [e] := by
  unfold extractTrailSlice
  split
  · exact ⟨_, rfl⟩
  · exact ⟨_, rfl⟩

theorem extractTrailSlice_two_le_length (tc : List Coord) (s : Coord) (i : ℕ) (e : Coord)
    (j : ℕ) : 2 ≤ (extractTrailSlice tc s i e j).length := by
  unfold extractTrailSlice
  split <;> simp

/-- C3: extraction is direction-symmetric — the forward slice reversed is
the backward slice with swapped endpoints. -/
theorem extractTrailSlice_reverse_symm (line : List Coord) (A : Coord) (idxA : ℕ)
    (B : Coord) (idxB : ℕ) :
    (extractTrailSlice line A idxA B idxB).reverse = extractTrailSlice line B idxB A idxA := by
  unfold extractTrailSlice
  rcases lt_trichotomy idxA idxB with h | h | h
  · rw [if_pos (le_of_lt h), if_neg (not_le.mpr h)]
    simp [List.reverse_append, List.map_reverse]
  · subst h
    simp [Nat.sub_self]
  · rw [if_neg (not_le.mpr h), if_pos (le_of_lt h)]
    simp [List.reverse_append, List.map_reverse]

/-- C10: `extractTrailSlice` always returns exactly
`|startIdx − endIdx| + 2` coordinates, hence at least 2. -/
theorem extractTrailSlice_length (line : List Coord) (s : Coord) (startIdx : ℕ)
    (e : Coord) (endIdx : ℕ) :
    (extractTrailSlice line s startIdx e endIdx).length =
        ((startIdx : ℤ) - (endIdx : ℤ)).natAbs + 2 ∧
      2 ≤ (extractTrailSlice line s startIdx e endIdx).length := by
  refine ⟨?_, extractTrailSlice_two_le_length _ _ _ _ _⟩
  unfold extractTrailSlice
  split <;> simp <;> omega

/-- The trail and refs of the spec's Scenario C: two vertices snapped to
the same 12-point trail at parametric indices 5 and 9. -/
def c2Trail : List Coord :=
  [(0, 0), (1, 0), (2, 0), (3, 0), (4, 0), (5, 0), (6, 0), (7, 0), (8, 0), (9, 0),
    (10, 0), (11, 0)]

def c2RefA : TrailRef := ⟨c2Trail, none, none, 5⟩

def c2RefB : TrailRef := ⟨c2Trail, none, none, 9⟩

/-- C2 counterexample: for the same-trail extraction at indices 5 and 9
the segment is NOT `[startCoord, trail[6], trail[7], trail[8], endCoord]`
— the code also includes `trail[9]` (the slice is
`[startCoord, trail[6], trail[7], trail[8], trail[9], endCoord]`). -/
theorem scenarioC_claimed_sequence_false :
    (getTrailSegmentBetween trivEnv [] (some c2RefA) (some c2RefB)
        (100, 100) (200, 200)).coords ≠
      [(100, 100), c2Trail.getD 6 d0, c2Trail.getD 7 d0, c2Trail.getD 8 d0, (200, 200)] := by
  decide

/-- C2 amended: two vertices snapping to the same trail polyline at
parametric indices 5 and 9 yield the segment
`[startCoord, trail[6], trail[7], trail[8], trail[9], endCoord]` with
`isTrailSnapped = true`. -/
theorem scenarioC_same_trail_slice (env : GeoEnv) (corridor : List TrailFeat)
    (trail : List Coord) (h : trail ≠ []) (idA idB nmA nmB : Option String)
    (startCoord endCoord : Coord) :
    getTrailSegmentBetween env corridor (some ⟨trail, idA, nmA, 5⟩)
        (some ⟨trail, idB, nmB, 9⟩) startCoord endCoord =
      ⟨[startCoord, trail.getD 6 d0, trail.getD 7 d0, trail.getD 8 d0, trail.getD 9 d0,
        endCoord], true⟩ := by
  have hpos : 0 < trail.length := List.length_pos.mpr h
  have hsame : trailsMatch ⟨trail, idA, nmA, 5⟩ ⟨trail, idB, nmB, 9⟩ = .same := by
    unfold trailsMatch
    rw [if_pos ⟨rfl, ⟨hpos, hpos, rfl⟩, ⟨hpos, hpos, rfl⟩⟩]
  have hslice : extractTrailSlice trail startCoord 5 endCoord 9 =
      [startCoord, trail.getD 6 d0, trail.getD 7 d0, trail.getD 8 d0, trail.getD 9 d0,
        endCoord] := by
    unfold extractTrailSlice
    norm_num
    rfl
  simp only [getTrailSegmentBetween, hsame, hslice]
  norm_num

/-- C2 amended, witness: the concrete Scenario C trail. -/
theorem scenarioC_same_trail_slice_witness :
    getTrailSegmentBetween trivEnv [] (some c2RefA) (some c2RefB) (100, 100) (200, 200) =
      ⟨[(100, 100), (6, 0), (7, 0), (8, 0), (9, 0), (200, 200)], true⟩ :=
  scenarioC_same_trail_slice trivEnv [] c2Trail (by decide) none none none none
    (100, 100) (200, 200)

/-! ## Symmetry of the trail-identity classification -/

theorem sameCond_comm {a b : TrailRef} : sameCond a b ↔ sameCond b a := by
  unfold sameCond
  constructor <;> rintro ⟨h1, ⟨h2a, h2b, h2c⟩, ⟨h3a, h3b, h3c⟩⟩ <;>
    exact ⟨h1.symm, ⟨h2b, h2a, h2c.symm⟩, ⟨h3b, h3a, h3c.symm⟩⟩

theorem relIdCond_comm {a b : TrailRef} : relIdCond a b ↔ relIdCond b a := by
  unfold relIdCond
  constructor <;> rintro ⟨h1, h2, h3⟩ <;> exact ⟨h2, h1, h3.symm⟩

theorem relNameCond_comm {a b : TrailRef} : relNameCond a b ↔ relNameCond b a := by
  unfold relNameCond
  constructor <;> rintro ⟨h1, h2, h3⟩ <;> exact ⟨h2, h1, h3.symm⟩

/-- C9: the trail-identity classification is symmetric. -/
theorem trailsMatch_symm (a b : TrailRef) : trailsMatch a b = trailsMatch b a := by
  unfold trailsMatch
  by_cases h1 : sameCond a b
  · rw [if_pos h1, if_pos (sameCond_comm.mp h1)]
  · rw [if_neg h1, if_neg (fun hc => h1 (sameCond_comm.mpr hc))]
    by_cases h2 : relIdCond a b
    · rw [if_pos h2, if_pos (relIdCond_comm.mp h2)]
    · rw [if_neg h2, if_neg (fun hc => h2 (relIdCond_comm.mpr hc))]
      by_cases h3 : relNameCond a b
      · rw [if_pos h3, if_pos (relNameCond_comm.mp h3)]
      · rw [if_neg h3, if_neg (fun hc => h3 (relNameCond_comm.mpr hc))]

/-! ## Endpoint invariants of the connection strategies -/

theorem extractTrailSlice_decomp (tc : List Coord) (s : Coord) (i : ℕ) (e : Coord)
    (j : ℕ) : ∃ m, extractTrailSlice tc s i e j = s :: (m ++ [e]) := by
  unfold extractTrailSlice
  split
  · exact ⟨_, rfl⟩
  · exact ⟨_, rfl⟩

theorem findSome?_mem {α β : Type _} {f : α → Option β} :
    ∀ {l : List α} {b : β}, l.findSome? f = some b → ∃ a ∈ l, f a = some b := by
  intro l
  induction l with
  | nil => intro b h; simp [List.findSome?] at h
  | cons a as ih =>
    intro b h
    rw [List.findSome?_cons] at h
    rcases hfa : f a with _ | b' <;> rw [hfa] at h
    · obtain ⟨x, hx, hfx⟩ := ih h
      exact ⟨x, List.mem_cons_of_mem _ hx, hfx⟩
    · exact ⟨a, List.mem_cons_self _ _, by rw [hfa]; exact h⟩

/-- Anything produced by the single-trail pass starts at `prevCoord`, ends
at `currCoord`, and has at least two coordinates. -/
theorem singleTrailCandidate_spec {env : GeoEnv} {prevCoord currCoord : Coord}
    {t : TrailFeat} {cs : List Coord}
    (h : singleTrailCandidate env prevCoord currCoord t = some cs) :
    cs.head? = some prevCoord ∧ cs.getLast? = some currCoord ∧ 2 ≤ cs.length := by
  unfold singleTrailCandidate at h
  split at h
  · exact Option.noConfusion h
  split at h
  · exact Option.noConfusion h
  dsimp only at h
  split at h
  · split at h
    · cases h
      exact ⟨extractTrailSlice_head? _ _ _ _ _, extractTrailSlice_getLast? _ _ _ _ _,
        extractTrailSlice_two_le_length _ _ _ _ _⟩
    · exact Option.noConfusion h
  · exact Option.noConfusion h

/-- Anything produced by the two-hop junction stitch starts at `prevCoord`,
ends at `currCoord`, and has at least two coordinates. -/
theorem junctionStitch_spec {env : GeoEnv} {prevCoord currCoord : Coord}
    {pc cc : ℕ × TrailFeat × (Coord × ℕ)} {cs : List Coord}
    (h : junctionStitch env prevCoord currCoord pc cc = some cs) :
    cs.head? = some prevCoord ∧ cs.getLast? = some currCoord ∧ 2 ≤ cs.length := by
  unfold junctionStitch at h
  split at h
  · exact Option.noConfusion h
  obtain ⟨ai, -, h⟩ := findSome?_mem h
  obtain ⟨bi, -, h⟩ := findSome?_mem h
  dsimp only at h
  split at h
  · split at h
    · cases h
      obtain ⟨mA, hA⟩ := extractTrailSlice_decomp pc.2.1.coords prevCoord pc.2.2.2
        (pc.2.1.coords.getD ai d0) ai
      obtain ⟨mB, hB⟩ := extractTrailSlice_decomp cc.2.1.coords (pc.2.1.coords.getD ai d0) bi
        currCoord cc.2.2.2
      rw [hA, hB]
      refine ⟨rfl, ?_, by simp; omega⟩
      show (prevCoord :: (mA ++ [pc.2.1.coords.getD ai d0]) ++ (mB ++ [currCoord])).getLast?
          = some currCoord
      rw [← List.append_assoc, List.getLast?_concat]
    · exact Option.noConfusion h
  · exact Option.noConfusion h

/-- Anything produced by `tryConnectTrails` starts at `prevCoord`, ends at
`currCoord`, and has at least two coordinates. -/
theorem tryConnectTrails_spec {env : GeoEnv} {corridorTrails : List TrailFeat}
    {prevCoord currCoord : Coord} {cs : List Coord}
    (h : tryConnectTrails env corridorTrails prevCoord currCoord = some cs) :
    cs.head? = some prevCoord ∧ cs.getLast? = some currCoord ∧ 2 ≤ cs.length := by
  unfold tryConnectTrails at h
  rcases hs : corridorTrails.findSome? (singleTrailCandidate env prevCoord currCoord)
    with _ | cs'
  · rw [hs] at h
    obtain ⟨pc, -, h⟩ := findSome?_mem h
    obtain ⟨cc, -, h⟩ := findSome?_mem h
    exact junctionStitch_spec h
  · rw [hs] at h
    cases h
    obtain ⟨t, -, ht⟩ := findSome?_mem hs
    exact singleTrailCandidate_spec ht

/-- An empty corridor query yields no connection: the "null" outcome of
`tryConnectTrails`. -/
theorem tryConnectTrails_nil (env : GeoEnv) (prevCoord currCoord : Coord) :
    tryConnectTrails env [] prevCoord currCoord = none := rfl

theorem set_endpoints_head? {l : List Coord} (h : 2 ≤ l.length) (p c : Coord) :
    ((l.set 0 p).set (l.length - 1) c).head? = some p := by
  match l, h with
  | a :: b :: t, _ =>
    show ((p :: b :: t).set (t.length + 1) c).head? = some p
    rfl

theorem set_endpoints_getLast? {l : List Coord} (h : 2 ≤ l.length) (p c : Coord) :
    ((l.set 0 p).set (l.length - 1) c).getLast? = some c := by
  have h1 : l.length - 1 < ((l.set 0 p).set (l.length - 1) c).length := by
    simp; omega
  have h2 : ((l.set 0 p).set (l.length - 1) c).length - 1 = l.length - 1 := by simp
  rw [List.getLast?_eq_getElem?, h2, List.getElem?_set_self]
  · simp; omega

/-- Anything produced by the related-fragments merge path starts at
`prevCoord`, ends at `currCoord` (the canonical endpoint overwrite), has
at least two coordinates, and is flagged trail-snapped. -/
theorem relatedMergeResult_spec {env : GeoEnv} {prevRef currRef : TrailRef}
    {prevCoord currCoord : Coord} {r : SegResult}
    (h : relatedMergeResult env prevRef currRef prevCoord currCoord = some r) :
    r.coords.head? = some prevCoord ∧ r.coords.getLast? = some currCoord ∧
      2 ≤ r.coords.length ∧ r.isTrailSnapped = true := by
  unfold relatedMergeResult at h
  split at h
  · exact Option.noConfusion h
  · exact Option.noConfusion h
  dsimp only at h
  split at h
  · rename_i hlen
    cases h
    refine ⟨set_endpoints_head? hlen _ _, set_endpoints_getLast? hlen _ _, ?_, rfl⟩
    simpa using hlen
  · exact Option.noConfusion h

/-- C1: every segment returned by `getTrailSegmentBetween` — whatever
strategy produced it — has `prevCoord` as its exact first coordinate and
`currCoord` as its exact last coordinate. -/
theorem getTrailSegmentBetween_endpoints (env : GeoEnv) (corridorTrails : List TrailFeat)
    (prevRef currRef : Option TrailRef) (prevCoord currCoord : Coord) :
    (getTrailSegmentBetween env corridorTrails prevRef currRef
        prevCoord currCoord).coords.head? = some prevCoord ∧
    (getTrailSegmentBetween env corridorTrails prevRef currRef
        prevCoord currCoord).coords.getLast? = some currCoord := by
  rcases prevRef with _ | pa
  · exact ⟨rfl, rfl⟩
  rcases currRef with _ | pb
  · exact ⟨rfl, rfl⟩
  show ((match trailsMatch pa pb with
    | .same => _
    | .related => _
    | .nomatch => _) : SegResult).coords.head? = _ ∧ _
  rcases hm : trailsMatch pa pb <;> simp only [getTrailSegmentBetween, hm]
  · -- same: index-based slice
    split_ifs
    · exact ⟨extractTrailSlice_head? _ _ _ _ _, extractTrailSlice_getLast? _ _ _ _ _⟩
    · exact ⟨rfl, rfl⟩
  · -- related: merge path, then corridor connect, then straight line
    rcases hr : relatedMergeResult env pa pb prevCoord currCoord with _ | r
    · rcases ht : tryConnectTrails env corridorTrails prevCoord currCoord with _ | cs
      · exact ⟨rfl, rfl⟩
      · obtain ⟨h1, h2, -⟩ := tryConnectTrails_spec ht
        exact ⟨h1, h2⟩
    · obtain ⟨h1, h2, -, -⟩ := relatedMergeResult_spec hr
      exact ⟨h1, h2⟩
  · -- unrelated: corridor connect, then straight line
    rcases ht : tryConnectTrails env corridorTrails prevCoord currCoord with _ | cs
    · exact ⟨rfl, rfl⟩
    · obtain ⟨h1, h2, -⟩ := tryConnectTrails_spec ht
      exact ⟨h1, h2⟩

/-- C8: `getTrailSegmentBetween` is total over arbitrary (null or
degenerate) trail refs with a result of at least two coordinates (every
fallible step is caught and degrades); when every trail-following strategy
fails — a null endpoint, or a non-`same` pair whose merge path and
corridor connection both come up empty — the result is exactly the
straight line `[prevCoord, currCoord]` with `isTrailSnapped = false`; and
`tryConnectTrails` reports "no connection" as `none`, never an error. -/
theorem getTrailSegmentBetween_shape (env : GeoEnv) (corridorTrails : List TrailFeat)
    (prevRef currRef : Option TrailRef) (prevCoord currCoord : Coord) :
    2 ≤ (getTrailSegmentBetween env corridorTrails prevRef currRef
        prevCoord currCoord).coords.length ∧
    ((prevRef = none ∨ currRef = none) →
      getTrailSegmentBetween env corridorTrails prevRef currRef prevCoord currCoord =
        ⟨[prevCoord, currCoord], false⟩) ∧
    (∀ pa pb, prevRef = some pa → currRef = some pb →
      trailsMatch pa pb ≠ .same →
      relatedMergeResult env pa pb prevCoord currCoord = none →
      tryConnectTrails env corridorTrails prevCoord currCoord = none →
      getTrailSegmentBetween env corridorTrails prevRef currRef prevCoord currCoord =
        ⟨[prevCoord, currCoord], false⟩) ∧
    tryConnectTrails env [] prevCoord currCoord = none := by
  refine ⟨?_, ?_, ?_, rfl⟩
  · rcases prevRef with _ | pa
    · simp [getTrailSegmentBetween]
    rcases currRef with _ | pb
    · simp [getTrailSegmentBetween]
    rcases hm : trailsMatch pa pb <;> simp only [getTrailSegmentBetween, hm]
    · split_ifs with h
      · exact h
      · simp
    · rcases hr : relatedMergeResult env pa pb prevCoord currCoord with _ | r
      · rcases ht : tryConnectTrails env corridorTrails prevCoord currCoord with _ | cs
        · simp
        · exact (tryConnectTrails_spec ht).2.2
      · exact (relatedMergeResult_spec hr).2.2.1
    · rcases ht : tryConnectTrails env corridorTrails prevCoord currCoord with _ | cs
      · simp
      · exact (tryConnectTrails_spec ht).2.2
  · rintro (rfl | rfl)
    · rfl
    · rcases prevRef with _ | pa <;> rfl
  · rintro pa pb rfl rfl hne hmerge htc
    rcases hm : trailsMatch pa pb
    · exact absurd hm hne
    · simp only [getTrailSegmentBetween, hm, hmerge, htc]
    · simp only [getTrailSegmentBetween, hm, htc]

/-- An environment whose geodesic distances are all far beyond the merge
tolerance and whose pixel projections are all far beyond the snap radius:
every connection strategy fails. -/
def farEnv : GeoEnv where
  project := id
  dist := fun _ _ => 1000
  nearest := fun _ _ => ((1000, 1000), 0)
  lineSlice := fun _ _ l => l
  lineLength := fun _ => 0

def c8RefA : TrailRef := ⟨[(0, 0), (1, 0)], none, none, 0⟩

def c8RefB : TrailRef := ⟨[(5, 5), (6, 5), (7, 5)], none, none, 0⟩

/-- C8 witness: two unrelated refs with no merge and no corridor
connection degrade to the straight line, unsnapped. -/
theorem getTrailSegmentBetween_shape_witness :
    getTrailSegmentBetween farEnv [] (some c8RefA) (some c8RefB) (0, 0) (9, 9) =
      ⟨[(0, 0), (9, 9)], false⟩ :=
  (getTrailSegmentBetween_shape farEnv [] (some c8RefA) (some c8RefB) (0, 0) (9, 9)).2.2.1
    c8RefA c8RefB rfl rfl (by decide) (by decide) (by decide)

/-! ## The snap radius bound -/

theorem snapStep_invalid {project : Coord → Coord} {nearest : List Coord → Coord → Coord × ℕ}
    {coord pixel : Coord} {acc : Option (Coord × ℕ × TrailFeat × ℚ)} {t : TrailFeat}
    (h : ¬ validTrail t) : snapStep project nearest coord pixel acc t = acc := by
  unfold snapStep
  rw [if_pos h]

theorem snapStep_none {project : Coord → Coord} {nearest : List Coord → Coord → Coord × ℕ}
    {coord pixel : Coord} {t : TrailFeat} (h : validTrail t) :
    snapStep project nearest coord pixel none t =
      some ((nearest t.coords coord).1, (nearest t.coords coord).2, t,
        candDistSq project nearest coord pixel t) := by
  unfold snapStep
  rw [if_neg (not_not_intro h)]
  rfl


theorem snapStep_some {project : Coord → Coord} {nearest : List Coord → Coord → Coord × ℕ}
    {coord pixel : Coord} {t : TrailFeat} (h : validTrail t)
    (best : Coord × ℕ × TrailFeat × ℚ) :
    snapStep project nearest coord pixel (some best) t =
      if candDistSq project nearest coord pixel t < best.2.2.2 then
        some ((nearest t.coords coord).1, (nearest t.coords coord).2, t,
          candDistSq project nearest coord pixel t)
      else some best := by
  unfold snapStep
  rw [if_neg (not_not_intro h)]
  rfl

/-- Once the best-candidate accumulator is populated it stays populated and
its pixel distance never increases. -/
theorem snapFold_mono (project : Coord → Coord) (nearest : List Coord → Coord → Coord × ℕ)
    (coord pixel : Coord) :
    ∀ (l : List TrailFeat) (a : Coord × ℕ × TrailFeat × ℚ),
      ∃ b, l.foldl (snapStep project nearest coord pixel) (some a) = some b ∧
        b.2.2.2 ≤ a.2.2.2 := by
  intro l
  induction l with
  | nil => exact fun a => ⟨a, rfl, le_refl _⟩
  | cons t ts ih =>
    intro a
    rw [List.foldl_cons]
    by_cases hv : validTrail t
    · rw [snapStep_some hv]
      by_cases hlt : candDistSq project nearest coord pixel t < a.2.2.2
      · rw [if_pos hlt]
        obtain ⟨b, hb, hle⟩ := ih _
        exact ⟨b, hb, le_trans hle (le_of_lt hlt)⟩
      · rw [if_neg hlt]
        exact ih a
    · rw [snapStep_invalid hv]
      exact ih a

/-- The accumulator's stored pixel distance is the pixel distance of its
stored snapped point. -/
theorem snapFold_wf (project : Coord → Coord) (nearest : List Coord → Coord → Coord × ℕ)
    (coord pixel : Coord) :
    ∀ (l : List TrailFeat) (acc : Option (Coord × ℕ × TrailFeat × ℚ)),
      (∀ b, acc = some b → b.2.2.2 = pixelDistSq (project b.1) pixel) →
      ∀ b, l.foldl (snapStep project nearest coord pixel) acc = some b →
        b.2.2.2 = pixelDistSq (project b.1) pixel := by
  intro l
  induction l with
  | nil => intro acc hacc b hb; exact hacc b hb
  | cons t ts ih =>
    intro acc hacc b hb
    rw [List.foldl_cons] at hb
    refine ih _ ?_ b hb
    intro b' hb'
    by_cases hv : validTrail t
    · rcases acc with _ | best
      · rw [snapStep_none hv] at hb'
        cases hb'
        rfl
      · rw [snapStep_some hv] at hb'
        by_cases hlt : candDistSq project nearest coord pixel t < best.2.2.2
        · rw [if_pos hlt] at hb'
          cases hb'
          rfl
        · rw [if_neg hlt] at hb'
          exact hacc b' hb'
    · rw [snapStep_invalid hv] at hb'
      exact hacc b' hb'

/-- Every valid candidate forces a populated result whose pixel distance is
no larger than the candidate's. -/
theorem snapFold_min (project : Coord → Coord) (nearest : List Coord → Coord → Coord × ℕ)
    (coord pixel : Coord) :
    ∀ (l : List TrailFeat) (acc : Option (Coord × ℕ × TrailFeat × ℚ)),
      ∀ t ∈ l, validTrail t →
        ∃ b, l.foldl (snapStep project nearest coord pixel) acc = some b ∧
          b.2.2.2 ≤ candDistSq project nearest coord pixel t := by
  intro l
  induction l with
  | nil => intro acc t ht; cases ht
  | cons t' ts ih =>
    intro acc t ht hvalid
    rw [List.foldl_cons]
    rcases List.mem_cons.mp ht with rfl | hmem
    · have hstep : ∃ a, snapStep project nearest coord pixel acc t = some a ∧
          a.2.2.2 ≤ candDistSq project nearest coord pixel t := by
        rcases acc with _ | best
        · exact ⟨_, snapStep_none hvalid, le_refl _⟩
        · rw [snapStep_some hvalid]
          by_cases hlt : candDistSq project nearest coord pixel t < best.2.2.2
          · rw [if_pos hlt]
            exact ⟨_, rfl, le_refl _⟩
          · rw [if_neg hlt]
            exact ⟨best, rfl, le_of_not_lt hlt⟩
      obtain ⟨a, ha, hle⟩ := hstep
      rw [ha]
      obtain ⟨b, hb, hble⟩ := snapFold_mono project nearest coord pixel ts a
      exact ⟨b, hb, le_trans hble hle⟩
    · exact ih (snapStep project nearest coord pixel acc t') t hmem hvalid

/-- C4: an accepted snap lies within the snap radius of the query point in
pixel space (stated with squared distances); a rejected snap returns the
query coordinate unchanged, and then no valid candidate's nearest
projection lay within the radius. -/
theorem snapToTrail_radius_bound (project : Coord → Coord)
    (nearest : List Coord → Coord → Coord × ℕ) (trails : List TrailFeat)
    (coord : Coord) (res : SnapRes)
    (hres : snapToTrail project nearest trails coord = res) :
    (res.snapped = true →
      pixelDistSq (project res.coordinates) (project coord) ≤
        SNAP_PIXEL_RADIUS * SNAP_PIXEL_RADIUS) ∧
    (res.snapped = false →
      res.coordinates = coord ∧
      ∀ t ∈ trails, validTrail t →
        SNAP_PIXEL_RADIUS * SNAP_PIXEL_RADIUS <
          pixelDistSq (project (nearest t.coords coord).1) (project coord)) := by
  unfold snapToTrail at hres
  by_cases hlen : trails.length = 0
  · rw [if_pos hlen] at hres
    cases hres
    refine ⟨fun h => Bool.noConfusion h, fun _ => ⟨rfl, fun t ht _ => ?_⟩⟩
    rw [List.length_eq_zero.mp hlen] at ht
    cases ht
  · rw [if_neg hlen] at hres
    dsimp only at hres
    rcases hf : trails.foldl (snapStep project nearest coord (project coord)) none
      with _ | ⟨bpt, bidx, btrail, bdSq⟩
    · rw [hf] at hres
      cases hres
      refine ⟨fun h => Bool.noConfusion h, fun _ => ⟨rfl, fun t ht hv => ?_⟩⟩
      obtain ⟨b, hb, -⟩ :=
        snapFold_min project nearest coord (project coord) trails none t ht hv
      rw [hf] at hb
      cases hb
    · rw [hf] at hres
      dsimp only at hres
      have hwf := snapFold_wf project nearest coord (project coord) trails none
        (fun b hb => Option.noConfusion hb) _ hf
      by_cases hle : bdSq ≤ SNAP_PIXEL_RADIUS * SNAP_PIXEL_RADIUS
      · rw [if_pos hle] at hres
        cases hres
        refine ⟨fun _ => ?_, fun h => Bool.noConfusion h⟩
        show pixelDistSq (project bpt) (project coord) ≤ _
        rw [show pixelDistSq (project bpt) (project coord) = bdSq from hwf.symm]
        exact hle
      · rw [if_neg hle] at hres
        cases hres
        refine ⟨fun h => Bool.noConfusion h, fun _ => ⟨rfl, fun t ht hv => ?_⟩⟩
        obtain ⟨b', hb', hble⟩ :=
          snapFold_min project nearest coord (project coord) trails none t ht hv
        rw [hf] at hb'
        cases hb'
        exact lt_of_lt_of_le (not_le.mp hle) hble

def c4Trail : TrailFeat := ⟨true, [(0, 0), (10, 0)], none, none⟩

def c4Nearest : List Coord → Coord → Coord × ℕ := fun _ _ => ((1, 0), 0)

/-- C4 witness: a concrete accepted snap one pixel away from the query
point is within the squared radius bound. -/
theorem snapToTrail_radius_bound_witness :
    pixelDistSq ((1, 0) : Coord) ((2, 0) : Coord) ≤ SNAP_PIXEL_RADIUS * SNAP_PIXEL_RADIUS :=
  (snapToTrail_radius_bound id c4Nearest [c4Trail] (2, 0)
    ⟨(1, 0), true, some c4Trail, some 0⟩ (by
      unfold snapToTrail
      norm_num [snapStep, validTrail, candDistSq, pixelDistSq, c4Trail, c4Nearest,
        SNAP_PIXEL_RADIUS])).1 rfl

/-! ## The fragment merge: ordered joins, tolerance boundary, fallback -/

/-- C5: `mergeTrailFragments` tests the four joins in the fixed order
(A-end→B-start), (A-end→B-end reversing B), (B-end→A-start),
(B-start→A-start reversing B), each with `≤ MERGE_GAP_TOLERANCE_METERS`
(so a gap exactly at the tolerance merges), the first hit winning; and
when every gap exceeds the tolerance no merge occurs (`null`) and the
caller — with no corridor connection either — falls back to the straight
segment. -/
theorem mergeTrailFragments_ordered_joins (dist : Coord → Coord → ℚ)
    (coordsA coordsB : List Coord) (hA : coordsA ≠ []) (hB : coordsB ≠ [])
    (hlen : 2 ≤ coordsA.length ∨ 2 ≤ coordsB.length) :
    (mergeTrailFragments dist coordsA coordsB =
      .ok (
        if dist (coordsA.getLastD d0) (coordsB.headD d0) ≤ MERGE_GAP_TOLERANCE_METERS then
          some (coordsA ++ coordsB.drop 1)
        else if dist (coordsA.getLastD d0) (coordsB.getLastD d0) ≤
            MERGE_GAP_TOLERANCE_METERS then
          some (coordsA ++ coordsB.reverse.drop 1)
        else if dist (coordsB.getLastD d0) (coordsA.headD d0) ≤
            MERGE_GAP_TOLERANCE_METERS then
          some (coordsB ++ coordsA.drop 1)
        else if dist (coordsB.headD d0) (coordsA.headD d0) ≤
            MERGE_GAP_TOLERANCE_METERS then
          some (coordsB.reverse ++ coordsA.drop 1)
        else none)) ∧
    (MERGE_GAP_TOLERANCE_METERS < dist (coordsA.getLastD d0) (coordsB.headD d0) →
     MERGE_GAP_TOLERANCE_METERS < dist (coordsA.getLastD d0) (coordsB.getLastD d0) →
     MERGE_GAP_TOLERANCE_METERS < dist (coordsB.getLastD d0) (coordsA.headD d0) →
     MERGE_GAP_TOLERANCE_METERS < dist (coordsB.headD d0) (coordsA.headD d0) →
      mergeTrailFragments dist coordsA coordsB = .ok none ∧
      ∀ (env : GeoEnv) (pa pb : TrailRef) (prevCoord currCoord : Coord),
        env.dist = dist → pa.trailCoords = coordsA → pb.trailCoords = coordsB →
        trailsMatch pa pb = .related →
        getTrailSegmentBetween env [] (some pa) (some pb) prevCoord currCoord =
          ⟨[prevCoord, currCoord], false⟩) := by
  have hA' : 0 < coordsA.length := List.length_pos.mpr hA
  have hB' : 0 < coordsB.length := List.length_pos.mpr hB
  have hchar : mergeTrailFragments dist coordsA coordsB =
      .ok (
        if dist (coordsA.getLastD d0) (coordsB.headD d0) ≤ MERGE_GAP_TOLERANCE_METERS then
          some (coordsA ++ coordsB.drop 1)
        else if dist (coordsA.getLastD d0) (coordsB.getLastD d0) ≤
            MERGE_GAP_TOLERANCE_METERS then
          some (coordsA ++ coordsB.reverse.drop 1)
        else if dist (coordsB.getLastD d0) (coordsA.headD d0) ≤
            MERGE_GAP_TOLERANCE_METERS then
          some (coordsB ++ coordsA.drop 1)
        else if dist (coordsB.headD d0) (coordsA.headD d0) ≤
            MERGE_GAP_TOLERANCE_METERS then
          some (coordsB.reverse ++ coordsA.drop 1)
        else none) := by
    unfold mergeTrailFragments lineString
    rw [if_neg (by omega)]
    dsimp only
    split_ifs <;>
      first
        | rfl
        | (simp only [List.length_append, List.length_drop, List.length_reverse] at *
           omega)
  refine ⟨hchar, fun h1 h2 h3 h4 => ?_⟩
  have hnone : mergeTrailFragments dist coordsA coordsB = .ok none := by
    rw [hchar, if_neg (not_le.mpr h1), if_neg (not_le.mpr h2), if_neg (not_le.mpr h3),
      if_neg (not_le.mpr h4)]
  refine ⟨hnone, fun env pa pb prevCoord currCoord hd hpa hpb hrel => ?_⟩
  have hrmr : relatedMergeResult env pa pb prevCoord currCoord = none := by
    unfold relatedMergeResult
    rw [hd, hpa, hpb, hnone]
  simp only [getTrailSegmentBetween, hrel, hrmr, tryConnectTrails_nil]

def c5Dist : Coord → Coord → ℚ := fun _ _ => 20

def c5A : List Coord := [(0, 0), (1, 0)]

def c5B : List Coord := [(1, 0), (2, 0)]

/-- C5 witness: two fragments whose endpoint gap equals the tolerance
exactly merge into one continuous polyline via the first join. -/
theorem mergeTrailFragments_ordered_joins_witness :
    mergeTrailFragments c5Dist c5A c5B = .ok (some [(0, 0), (1, 0), (2, 0)]) := by
  have h := (mergeTrailFragments_ordered_joins c5Dist c5A c5B (by decide) (by decide)
    (Or.inl (by decide))).1
  rw [h, if_pos (by decide)]
  rfl

/-! ## Assembly dedup -/

/-- Two coordinates identical within the dedup epsilon (per axis) — the
condition under which `buildMainRouteDisplayCoords` drops an appended
segment's first coordinate. -/
def closeEps (p q : Coord) : Prop :=
  |p.1 - q.1| ≤ DEDUP_EPS ∧ |p.2 - q.2| ≤ DEDUP_EPS

instance (p q : Coord) : Decidable (closeEps p q) := by
  unfold closeEps; infer_instance

/-- Adjacent coordinates separated by more than twice the dedup epsilon on
some axis. -/
def sepTwoEps (p q : Coord) : Prop :=
  2 * DEDUP_EPS < |p.1 - q.1| ∨ 2 * DEDUP_EPS < |p.2 - q.2|

theorem sepTwoEps_not_closeEps {p q : Coord} (h : sepTwoEps p q) : ¬ closeEps p q := by
  have heps : (0 : ℚ) ≤ DEDUP_EPS := by norm_num [DEDUP_EPS]
  rcases h with h | h <;> intro hc
  · exact absurd hc.1 (by linarith)
  · exact absurd hc.2 (by linarith)

/-- C6 counterexample: a session whose single segment is the straight line
produced by clicking the same unsnapped point twice assembles to
`[(0,0), (0,0)]` — two adjacent coordinates identical within the dedup
epsilon. The boundary dedup does not remove duplicates inside a single
segment. -/
theorem assembly_adjacent_duplicate_cx :
    ¬ List.Chain' (fun p q => ¬ closeEps p q)
      (buildMainRouteDisplayCoords
        [getTrailSegmentBetween trivEnv [] none none (0, 0) (0, 0)] [] []) := by
  intro h
  have hev : buildMainRouteDisplayCoords
      [getTrailSegmentBetween trivEnv [] none none (0, 0) (0, 0)] [] [] =
      [(0, 0), (0, 0)] := rfl
  rw [hev] at h
  exact (List.chain'_cons.mp h).1 (by norm_num [closeEps, DEDUP_EPS])

/-- One `appendSegmentCoords` step preserves freedom from adjacent
epsilon-duplicates, provided the appended segment's own adjacent
coordinates are separated by more than twice the epsilon. -/
theorem appendSegmentCoords_chain {acc : List Coord} {seg : SegResult}
    (hacc : List.Chain' (fun p q => ¬ closeEps p q) acc)
    (hseg : List.Chain' sepTwoEps seg.coords) :
    List.Chain' (fun p q => ¬ closeEps p q) (appendSegmentCoords acc seg) := by
  have hchain : List.Chain' (fun p q => ¬ closeEps p q) seg.coords :=
    hseg.imp (fun _ _ h => sepTwoEps_not_closeEps h)
  unfold appendSegmentCoords
  dsimp only
  by_cases hne : 0 < seg.coords.length ∧ 0 < acc.length
  · rw [if_pos hne]
    by_cases hdup : DEDUP_EPS < |(acc.getLastD d0).1 - (seg.coords.headD d0).1| ∨
        DEDUP_EPS < |(acc.getLastD d0).2 - (seg.coords.headD d0).2|
    · rw [if_pos hdup, List.drop_zero, List.chain'_append]
      refine ⟨hacc, hchain, fun x hx y hy => ?_⟩
      have hx' : acc.getLastD d0 = x := by
        rw [List.getLastD_eq_getLast?, hx]
        rfl
      have hy' : seg.coords.headD d0 = y := by
        rw [List.headD_eq_head?, hy]
        rfl
      rw [hx', hy'] at hdup
      intro hc
      rcases hdup with hd | hd
      · exact absurd hc.1 (not_le.mpr hd)
      · exact absurd hc.2 (not_le.mpr hd)
    · rw [if_neg hdup, List.drop_one, List.chain'_append]
      refine ⟨hacc, hchain.tail, fun x hx y hy => ?_⟩
      push_neg at hdup
      rcases hsc : seg.coords with _ | ⟨c0, cs⟩
      · rw [hsc] at hy
        exact Option.noConfusion hy
      rcases cs with _ | ⟨c1, ct⟩
      · rw [hsc] at hy
        exact Option.noConfusion hy
      have hy' : y = c1 := by
        rw [hsc] at hy
        exact (Option.some.inj hy).symm
      have hx' : acc.getLastD d0 = x := by
        rw [List.getLastD_eq_getLast?, hx]
        rfl
      have hhead : seg.coords.headD d0 = c0 := by rw [hsc]; rfl
      rw [hx', hhead] at hdup
      have hsep01 : sepTwoEps c0 c1 := by
        have := hseg
        rw [hsc] at this
        exact (List.chain'_cons.mp this).1
      intro hc
      rw [hy'] at hc
      have heps : (0 : ℚ) ≤ DEDUP_EPS := by norm_num [DEDUP_EPS]
      rcases hsep01 with hd | hd
      · have htri : |c0.1 - c1.1| ≤ |c0.1 - x.1| + |x.1 - c1.1| := abs_sub_le _ _ _
        have h1 : |c0.1 - x.1| = |x.1 - c0.1| := abs_sub_comm _ _
        have h2 := hdup.1
        have h3 := hc.1
        linarith
      · have htri : |c0.2 - c1.2| ≤ |c0.2 - x.2| + |x.2 - c1.2| := abs_sub_le _ _ _
        have h1 : |c0.2 - x.2| = |x.2 - c0.2| := abs_sub_comm _ _
        have h2 := hdup.2
        have h3 := hc.2
        linarith
  · rw [if_neg hne, List.drop_one, List.chain'_append]
    refine ⟨hacc, hchain.tail, fun x hx y hy => ?_⟩
    rcases not_and_or.mp hne with h | h
    · have hnil : seg.coords = [] := List.length_eq_zero.mp (by omega)
      rw [hnil] at hy
      exact Option.noConfusion hy
    · have hnil : acc = [] := List.length_eq_zero.mp (by omega)
      rw [hnil] at hx
      exact Option.noConfusion hx

theorem foldl_appendSegmentCoords_chain :
    ∀ (segs : List SegResult) (acc : List Coord),
      List.Chain' (fun p q => ¬ closeEps p q) acc →
      (∀ s ∈ segs, List.Chain' sepTwoEps s.coords) →
      List.Chain' (fun p q => ¬ closeEps p q) (segs.foldl appendSegmentCoords acc) := by
  intro segs
  induction segs with
  | nil => intro acc hacc _; exact hacc
  | cons s ss ih =>
    intro acc hacc hsep
    rw [List.foldl_cons]
    exact ih _ (appendSegmentCoords_chain hacc (hsep s (List.mem_cons_self _ _)))
      (fun t ht => hsep t (List.mem_cons_of_mem _ ht))

/-- C6 amended: when appending each subsequent segment
`buildMainRouteDisplayCoords` drops the segment's first coordinate exactly
when it duplicates the previous segment's last coordinate within the dedup
epsilon; consequently, whenever each individual segment's own adjacent
coordinates are separated by more than twice the epsilon on some axis, the
assembled sequence has no two adjacent coordinates identical within the
epsilon. (Duplicates inside a single segment are NOT removed — see the
counterexample.) -/
theorem buildMainRouteDisplayCoords_boundary_dedup (routeSegments : List SegResult)
    (routeCoords : List Coord) (routeVertexTypes : List String)
    (hsep : ∀ s ∈ routeSegments, List.Chain' sepTwoEps s.coords) :
    List.Chain' (fun p q => ¬ closeEps p q)
      (buildMainRouteDisplayCoords routeSegments routeCoords routeVertexTypes) := by
  rcases routeSegments with _ | ⟨s0, rest⟩
  · unfold buildMainRouteDisplayCoords
    dsimp only
    split_ifs
    · exact List.chain'_singleton _
    · exact List.chain'_nil
  · unfold buildMainRouteDisplayCoords
    exact foldl_appendSegmentCoords_chain rest s0.coords
      ((hsep s0 (List.mem_cons_self _ _)).imp (fun _ _ h => sepTwoEps_not_closeEps h))
      (fun t ht => hsep t (List.mem_cons_of_mem _ ht))

/-- C6 amended, witness: two well-separated segments sharing an endpoint
assemble without adjacent duplicates (the shared endpoint is dropped). -/
theorem buildMainRouteDisplayCoords_boundary_dedup_witness :
    List.Chain' (fun p q => ¬ closeEps p q)
      (buildMainRouteDisplayCoords
        [⟨[(0, 0), (1, 0)], true⟩, ⟨[(1, 0), (2, 0)], false⟩] [] []) :=
  buildMainRouteDisplayCoords_boundary_dedup _ _ _ (by
    intro s hs
    rcases List.mem_cons.mp hs with rfl | hs
    · refine List.chain'_cons.mpr ⟨?_, List.chain'_singleton _⟩
      left
      norm_num [DEDUP_EPS]
    rcases List.mem_cons.mp hs with rfl | hs
    · refine List.chain'_cons.mpr ⟨?_, List.chain'_singleton _⟩
      left
      norm_num [DEDUP_EPS]
    · cases hs)

/-! ## Dayhike spur branching -/

def c7Clicks : List ClickInput :=
  [⟨(0, 0), false, none, "dayhike", []⟩, ⟨(1, 1), false, none, "dayhike", []⟩]

/-- C7 counterexample: when the very first vertex is a dayhike (the point
type can be switched before the first click) and a second dayhike vertex
is placed, `findLastMainRouteVertexIndex` exhausts its scan and falls back
to index 0 — so the recorded spur's `fromVertexIndex` refers to a vertex
whose type is `dayhike`. -/
theorem dayhike_spur_from_dayhike_cx :
    ∃ spur ∈ (runClicks trivEnv c7Clicks).routeDayhikeSegments,
      (runClicks trivEnv c7Clicks).routeVertexTypes.getD spur.fromVertexIndex "" =
        "dayhike" := by
  decide

theorem findLastMain_le (types : List String) :
    ∀ i, findLastMainRouteVertexIndex types i ≤ i := by
  intro i
  induction i with
  | zero => exact le_refl 0
  | succ n ih =>
    unfold findLastMainRouteVertexIndex
    split
    · exact le_refl _
    · exact le_trans ih (Nat.le_succ n)

theorem findLastMain_spec (types : List String) :
    ∀ i, types.getD (findLastMainRouteVertexIndex types i) "" ≠ "dayhike" ∨
      findLastMainRouteVertexIndex types i = 0 := by
  intro i
  induction i with
  | zero => exact Or.inr rfl
  | succ n ih =>
    unfold findLastMainRouteVertexIndex
    split
    · rename_i hne
      exact Or.inl hne
    · exact ih

theorem getD_append_left {l l' : List String} {n : ℕ} (h : n < l.length) (d : String) :
    (l ++ l').getD n d = l.getD n d := by
  rw [List.getD_eq_getElem?_getD, List.getD_eq_getElem?_getD, List.getElem?_append_left h]

/-- Every trail vertex strictly between the scan's result and its starting
index is a dayhike vertex: the scan stops at the NEAREST preceding
non-dayhike vertex. -/
theorem findLastMain_between (types : List String) :
    ∀ i j, findLastMainRouteVertexIndex types i < j → j ≤ i →
      types.getD j "" = "dayhike" := by
  intro i
  induction i with
  | zero =>
    intro j h1 h2
    omega
  | succ n ih =>
    intro j h1 h2
    unfold findLastMainRouteVertexIndex at h1
    split at h1
    · omega
    · rename_i hnd
      rcases Nat.lt_succ_iff_lt_or_eq.mp (Nat.lt_succ_of_le h2) with hj | rfl
      · exact ih j h1 (by omega)
      · exact not_not.mp hnd

theorem getD_concat_length : ∀ (l : List String) (x d : String),
    (l ++ [x]).getD l.length d = x
  | [], _, _ => rfl
  | _ :: t, x, d => getD_concat_length t x d

/-- The session invariant behind C7: the type array tracks the coordinate
array, and every recorded spur branches from a vertex `fromVertexIndex`
preceding a dayhike vertex (at some position `p + 1`) such that every
vertex strictly between the two is itself a dayhike — so no nearer
preceding main-route vertex exists — and `fromVertexIndex` is non-dayhike
or the index-0 fallback. -/
def sessionInv (st : RouteState) : Prop :=
  st.routeVertexTypes.length = st.routeCoords.length ∧
  ∀ spur ∈ st.routeDayhikeSegments,
    ∃ p : ℕ, spur.fromVertexIndex ≤ p ∧ p + 1 < st.routeVertexTypes.length ∧
      st.routeVertexTypes.getD (p + 1) "" = "dayhike" ∧
      (∀ j, spur.fromVertexIndex < j → j ≤ p →
        st.routeVertexTypes.getD j "" = "dayhike") ∧
      (st.routeVertexTypes.getD spur.fromVertexIndex "" ≠ "dayhike" ∨
        spur.fromVertexIndex = 0)

theorem handleMapClickForRoute_inv (env : GeoEnv) (st : RouteState) (c : ClickInput)
    (h : sessionInv st) : sessionInv (handleMapClickForRoute env st c) := by
  obtain ⟨hlen, hspurs⟩ := h
  have hpres : ∀ spur ∈ st.routeDayhikeSegments,
      ∃ p : ℕ, spur.fromVertexIndex ≤ p ∧
        p + 1 < (st.routeVertexTypes ++ [c.ptype]).length ∧
        (st.routeVertexTypes ++ [c.ptype]).getD (p + 1) "" = "dayhike" ∧
        (∀ j, spur.fromVertexIndex < j → j ≤ p →
          (st.routeVertexTypes ++ [c.ptype]).getD j "" = "dayhike") ∧
        ((st.routeVertexTypes ++ [c.ptype]).getD spur.fromVertexIndex "" ≠ "dayhike" ∨
          spur.fromVertexIndex = 0) := by
    intro spur hold
    obtain ⟨p, hfp, hpl, hpd, hbet, hmain⟩ := hspurs spur hold
    refine ⟨p, hfp, by simp; omega, ?_, ?_, ?_⟩
    · rw [getD_append_left hpl]
      exact hpd
    · intro j h1 h2
      rw [getD_append_left (by omega)]
      exact hbet j h1 h2
    · rcases hmain with hm | hm
      · left
        rw [getD_append_left (by omega)]
        exact hm
      · exact Or.inr hm
  unfold handleMapClickForRoute
  dsimp only
  by_cases h2 : 2 ≤ (st.routeCoords ++ [c.coord]).length
  · rw [if_pos h2]
    by_cases hd : c.ptype = "dayhike"
    · rw [if_pos hd]
      refine ⟨by simp [hlen], ?_⟩
      intro spur hmem
      rcases List.mem_append.mp hmem with hold | hnew
      · exact hpres spur hold
      · have hs := List.mem_singleton.mp hnew
        subst hs
        refine ⟨(st.routeCoords ++ [c.coord]).length - 1 - 1,
          findLastMain_le _ _, ?_, ?_,
          fun j h1 hj2 => findLastMain_between _ _ j h1 hj2,
          findLastMain_spec _ _⟩
        · simp only [List.length_append, List.length_cons, List.length_nil] at *
          omega
        · have hp1 : (st.routeCoords ++ [c.coord]).length - 1 - 1 + 1 =
              st.routeVertexTypes.length := by
            simp only [List.length_append, List.length_cons, List.length_nil] at *
            omega
          rw [hp1, getD_concat_length]
          exact hd
    · rw [if_neg hd]
      exact ⟨by simp [hlen], hpres⟩
  · rw [if_neg h2]
    exact ⟨by simp [hlen], hpres⟩

theorem foldl_clicks_inv (env : GeoEnv) :
    ∀ (clicks : List ClickInput) (st : RouteState), sessionInv st →
      sessionInv (clicks.foldl (handleMapClickForRoute env) st) := by
  intro clicks
  induction clicks with
  | nil => exact fun st h => h
  | cons c cs ih =>
    intro st h
    rw [List.foldl_cons]
    exact ih _ (handleMapClickForRoute_inv env st c h)

/-- C7 amended: every dayhike spur recorded during a drawing session
branches from the NEAREST preceding non-dayhike vertex when one exists —
there is a dayhike vertex at some position `p + 1` (the spur's endpoint)
with `fromVertexIndex ≤ p`, every vertex strictly between
`fromVertexIndex` and `p + 1` is itself a dayhike vertex, and
`fromVertexIndex` is non-dayhike — unless every vertex up to `p` is a
dayhike, in which case the scan falls back to index 0 (which may itself be
a dayhike vertex — see the counterexample). -/
theorem dayhike_spur_from_main_vertex (env : GeoEnv) (clicks : List ClickInput)
    (spur : SpurRec) (hmem : spur ∈ (runClicks env clicks).routeDayhikeSegments) :
    ∃ p : ℕ,
      spur.fromVertexIndex ≤ p ∧
      p + 1 < (runClicks env clicks).routeVertexTypes.length ∧
      (runClicks env clicks).routeVertexTypes.getD (p + 1) "" = "dayhike" ∧
      (∀ j, spur.fromVertexIndex < j → j ≤ p →
        (runClicks env clicks).routeVertexTypes.getD j "" = "dayhike") ∧
      ((runClicks env clicks).routeVertexTypes.getD spur.fromVertexIndex "" ≠
          "dayhike" ∨
        (spur.fromVertexIndex = 0 ∧ ∀ j, j ≤ p →
          (runClicks env clicks).routeVertexTypes.getD j "" = "dayhike")) := by
  have hinv : sessionInv (runClicks env clicks) :=
    foldl_clicks_inv env clicks initialRouteState
      ⟨rfl, fun spur hs => absurd hs (List.not_mem_nil _)⟩
  obtain ⟨p, hfp, hpl, hpd, hbet, hmain⟩ := hinv.2 spur hmem
  refine ⟨p, hfp, hpl, hpd, hbet, ?_⟩
  rcases hmain with hm | hm
  · exact Or.inl hm
  · by_cases h0 : (runClicks env clicks).routeVertexTypes.getD spur.fromVertexIndex ""
        = "dayhike"
    · right
      refine ⟨hm, fun j hj => ?_⟩
      rcases Nat.eq_zero_or_pos j with rfl | hjpos
      · rw [hm] at h0
        exact h0
      · exact hbet j (by omega) hj
    · exact Or.inl h0

def c7wClicks : List ClickInput :=
  [⟨(0, 0), false, none, "route", []⟩, ⟨(1, 1), false, none, "dayhike", []⟩]

/-- C7 amended, witness: a route vertex followed by a dayhike vertex yields
a spur branching from the route vertex at index 0, with the dayhike vertex
right after it and nothing in between. -/
theorem dayhike_spur_from_main_vertex_witness :
    ∃ p : ℕ,
      (SpurRec.fromVertexIndex ⟨0, [(0, 0), (1, 1)], 0⟩) ≤ p ∧
      p + 1 < (runClicks trivEnv c7wClicks).routeVertexTypes.length ∧
      (runClicks trivEnv c7wClicks).routeVertexTypes.getD (p + 1) "" = "dayhike" ∧
      (∀ j, (SpurRec.fromVertexIndex ⟨0, [(0, 0), (1, 1)], 0⟩) < j → j ≤ p →
        (runClicks trivEnv c7wClicks).routeVertexTypes.getD j "" = "dayhike") ∧
      ((runClicks trivEnv c7wClicks).routeVertexTypes.getD
          (SpurRec.fromVertexIndex ⟨0, [(0, 0), (1, 1)], 0⟩) "" ≠ "dayhike" ∨
        ((SpurRec.fromVertexIndex ⟨0, [(0, 0), (1, 1)], 0⟩) = 0 ∧ ∀ j, j ≤ p →
          (runClicks trivEnv c7wClicks).routeVertexTypes.getD j "" = "dayhike")) :=
  dayhike_spur_from_main_vertex trivEnv c7wClicks ⟨0, [(0, 0), (1, 1)], 0⟩ (by decide)

end OutHere
